import Mathlib

/-!
Shallow embedding of the Smart Rockets simulation (`src/main.rs`).

Floating-point scalars (`f32`) are modelled as rationals.  The library
functions the source calls — `sqrt`, `cos`/`sin` (always composed with a
degree-to-radian conversion) and the random number generator — are taken
as explicit parameters:

* `sq : ℚ → ℚ` models `f32::sqrt`; the source only ever applies it to
  sums of squares `dx^2 + dy^2`.
* `cosR sinR : ℚ → ℚ` model `x.to_radians().cos()` and
  `x.to_radians().sin()` as functions of the degree value `x`.
* every call to the random generator is replaced by an explicit input:
  `DNA.crossover` takes the split point, `DNA.mutate` takes a per-gene
  replacement decision, the selection loop takes a stream of `SlotRnd`
  records, and `World.new` takes the initial random genes.

Fallible operations return `Option`: `rand::Rng::gen_range(0..0)` panics,
and slice indexing out of bounds panics, so `selection`/`restart`/`update`
are `Option`-valued, `none` modelling the panic.
-/

namespace SmartRockets

def GENE_LEN : ℕ := 400
def SCREEN_WIDTH : ℚ := 1000
def SCREEN_HEIGHT : ℚ := 650
def ROCKET_COUNT : ℕ := 80
def ROCKET_SPEED : ℚ := 3
def TARGET_RADIUS : ℚ := 30

structure Vector2 where
  x : ℚ
  y : ℚ

structure Rectangle where
  x : ℚ
  y : ℚ
  width : ℚ
  height : ℚ

/-- Rust `struct DNA { genes: [f32; GENE_LEN], curr_gene: usize, fitness: f32 }` -/
structure DNA where
  genes : Fin GENE_LEN → ℚ
  curr_gene : ℕ
  fitness : ℚ

/-- Source `DNA::new`: all genes zero, cursor and fitness zero. -/
def DNA.new : DNA := ⟨fun _ => 0, 0, 0⟩

/-- Source `DNA::next_angle`: early-return `genes[GENE_LEN-1]` when the cursor is
exhausted, otherwise return `genes[curr_gene]` and advance the cursor.
Returns the read value together with the updated `DNA`. -/
def DNA.next_angle (d : DNA) : ℚ × DNA :=
  if h : GENE_LEN ≤ d.curr_gene then
    (d.genes ⟨GENE_LEN - 1, by norm_num [GENE_LEN]⟩, d)
  else
    (d.genes ⟨d.curr_gene, by omega⟩, { d with curr_gene := d.curr_gene + 1 })

/-- Source `DNA::crossover` with the random split point `k` (drawn by the source
from `0..GENE_LEN`) made explicit: the child starts as `DNA::new` and gene
`i` is taken from `parent_a` when `i < k`, from `parent_b` otherwise. -/
def DNA.crossover (k : ℕ) (parent_a parent_b : DNA) : DNA :=
  { DNA.new with
    genes := fun i => if (i : ℕ) < k then parent_a.genes i else parent_b.genes i }

/-- Source `DNA::mutate` with the per-gene random decision made explicit:
`mu i = some v` models the draw `rand_num < MUTATION_RATE` replacing gene
`i` by the fresh random value `v`; `mu i = none` leaves gene `i` alone. -/
def DNA.mutate (mu : ℕ → Option ℚ) (d : DNA) : DNA :=
  { d with
    genes := fun i =>
      match mu (i : ℕ) with
      | some v => v
      | none => d.genes i }

inductive RocketState where
  | Alive
  | Dead
  | Successful
deriving DecidableEq

structure Rocket where
  dna : DNA
  pos : Vector2
  state : RocketState
  angle : ℚ
  dist_from_target : ℚ

/-- Source `Rocket::new(pos)`: fresh DNA, angle `-90.0`, state `Alive`. -/
def Rocket.new (pos : Vector2) : Rocket :=
  { dna := DNA.new, pos := pos, state := RocketState.Alive, angle := -90,
    dist_from_target := 0 }

instance : Inhabited Rocket := ⟨Rocket.new ⟨0, 0⟩⟩

/-- The fixed start position `(SCREEN_WIDTH / 2, SCREEN_HEIGHT - 75)`. -/
def startPos : Vector2 := ⟨SCREEN_WIDTH / 2, SCREEN_HEIGHT - 75⟩

structure World where
  rockets : List Rocket
  alive_count : ℤ
  walls : List Rectangle
  target : Vector2
  frame_counter : ℕ
  timer_rect : Rectangle
  generation : ℕ
  mating_pool : List ℕ

/-- Source `World::new` with the random genes made explicit: rocket `j` gets gene
`i` equal to `initGenes j i` (the source randomizes each rocket's DNA). -/
def World.new (initGenes : ℕ → ℕ → ℚ) : World :=
  { rockets :=
      (List.range ROCKET_COUNT).map (fun j =>
        { Rocket.new startPos with
          dna := { DNA.new with genes := fun i => initGenes j (i : ℕ) } }),
    alive_count := (ROCKET_COUNT : ℤ),
    walls := [⟨300, 250, 200, 20⟩, ⟨150, 300, 200, 20⟩],
    target := ⟨100, 100⟩,
    frame_counter := 0,
    timer_rect := ⟨0, SCREEN_HEIGHT - 15, SCREEN_WIDTH, 15⟩,
    generation := 0,
    mating_pool := [] }

/-- Source `World::collision_world`: strictly outside the screen rectangle. -/
def collision_world (pos : Vector2) : Prop :=
  pos.x < 0 ∨ SCREEN_WIDTH < pos.x ∨ pos.y < 0 ∨ SCREEN_HEIGHT < pos.y

instance (pos : Vector2) : Decidable (collision_world pos) := by
  unfold collision_world; infer_instance

/-- One wall test of `World::collision_wall`: strictly inside the rectangle. -/
def inside_wall (wall : Rectangle) (pos : Vector2) : Prop :=
  wall.x < pos.x ∧ pos.x < wall.x + wall.width ∧
    wall.y < pos.y ∧ pos.y < wall.y + wall.height

instance (wall : Rectangle) (pos : Vector2) : Decidable (inside_wall wall pos) := by
  unfold inside_wall; infer_instance

/-- Source `World::collision_wall`: strictly inside some wall. -/
def collision_wall (walls : List Rectangle) (pos : Vector2) : Prop :=
  ∃ wall ∈ walls, inside_wall wall pos

instance (walls : List Rectangle) (pos : Vector2) :
    Decidable (collision_wall walls pos) := by
  unfold collision_wall; infer_instance

/-- Source `World::collision_rocket` on a position: world bounds or some wall. -/
def collision_pos (walls : List Rectangle) (pos : Vector2) : Prop :=
  collision_world pos ∨ collision_wall walls pos

instance (walls : List Rectangle) (pos : Vector2) :
    Decidable (collision_pos walls pos) := by
  unfold collision_pos; infer_instance

/-- The squared Euclidean distance `(a - b)` used by the source:
`diff = a.sub(b); diff.x.powi(2) + diff.y.powi(2)`. -/
def distSq (a b : Vector2) : ℚ := (a.x - b.x) ^ 2 + (a.y - b.y) ^ 2

/-- Source `World::collision_target`: `sqrt(dx^2 + dy^2) < TARGET_RADIUS`. -/
def collision_target (sq : ℚ → ℚ) (target pos : Vector2) : Prop :=
  sq (distSq target pos) < TARGET_RADIUS

instance (sq : ℚ → ℚ) (target pos : Vector2) :
    Decidable (collision_target sq target pos) := by
  unfold collision_target; infer_instance

/-- Source `World::calc_dist_from_target`: store `sqrt(dx^2+dy^2)` in each rocket. -/
def World.calc_dist_from_target (w : World) (sq : ℚ → ℚ) : World :=
  { w with
    rockets := w.rockets.map (fun r =>
      { r with dist_from_target := sq (distSq w.target r.pos) }) }

/-- Source `World::calc_fitness`: recompute distances, then set each fitness to
`1 - dist_from_target / (sum of all dist_from_target)`. -/
def World.calc_fitness (w : World) (sq : ℚ → ℚ) : World :=
  let w1 := w.calc_dist_from_target sq
  let dist_from_target_sum : ℚ := (w1.rockets.map (fun r => r.dist_from_target)).sum
  { w1 with
    rockets := w1.rockets.map (fun r =>
      { r with dna :=
          { r.dna with fitness := 1 - r.dist_from_target / dist_from_target_sum } }) }

/-- The state-scaled quantity `n` of `World::gen_mating_pool`:
`n = fitness * 100`, then `* 0.6` for `Dead`, unchanged for `Alive`,
`* 2.0` for `Successful`. -/
def stateScaled (r : Rocket) : ℚ :=
  let n := r.dna.fitness * 100
  match r.state with
  | RocketState.Dead => n * (6 / 10)
  | RocketState.Alive => n
  | RocketState.Successful => n * 2

/-- Value `n.floor() as usize` applied to `stateScaled` (the `as usize` cast
clamps negative values to 0). -/
def weight (r : Rocket) : ℕ := (⌊stateScaled r⌋).toNat

/-- Source `World::gen_mating_pool`: clear the pool, then for every enumerated
rocket push its index `weight` many times. -/
def World.gen_mating_pool (w : World) : World :=
  { w with
    mating_pool :=
      w.rockets.enum.flatMap (fun p => List.replicate (weight p.2) p.1) }

/-- The random draws one iteration of `World::selection` makes:
two pool draws, the crossover split point, and the mutation decisions. -/
structure SlotRnd where
  ra : ℕ
  rb : ℕ
  split : ℕ
  mu : ℕ → Option ℚ

/-- One iteration of the `World::selection` loop.  `gen_range(0..len)`
panics on an empty pool (`none`); a drawn value is in `[0, len)`, modelled
as `ra % len`.  The parent lookups `self.rockets[parent_a_ind]` are
fallible list indexing. -/
def World.selectSlot (w : World) (s : SlotRnd) : Option Rocket :=
  if h : 0 < w.mating_pool.length then
    match w.rockets[w.mating_pool.get ⟨s.ra % w.mating_pool.length, Nat.mod_lt _ h⟩]?,
          w.rockets[w.mating_pool.get ⟨s.rb % w.mating_pool.length, Nat.mod_lt _ h⟩]? with
    | some pa, some pb =>
        some { Rocket.new startPos with
               dna := DNA.mutate s.mu (DNA.crossover (s.split % GENE_LEN) pa.dna pb.dna) }
    | _, _ => none
  else none

/-- Source `World::selection` filling `n` slots of the fresh instance's rocket
array, with the randomness stream `rnd` made explicit. -/
def World.selectMany (w : World) (rnd : ℕ → SlotRnd) : ℕ → Option (List Rocket)
  | 0 => some []
  | n + 1 =>
    match w.selectSlot (rnd n), w.selectMany rnd n with
    | some r, some l => some (r :: l)
    | _, _ => none

/-- Source `World::restart`: compute fitness, rebuild the mating pool, build a
fresh `World::new` instance, fill its rockets by selection, and bump the
generation counter. -/
def World.restart (w : World) (sq : ℚ → ℚ) (initGenes : ℕ → ℕ → ℚ)
    (rnd : ℕ → SlotRnd) : Option World :=
  let w2 := (w.calc_fitness sq).gen_mating_pool
  let inst := World.new initGenes
  match w2.selectMany rnd inst.rockets.length with
  | some l => some { inst with rockets := l, generation := w.generation + 1 }
  | none => none

/-- The body of the second loop of `update` for one rocket, fused with the
classification pass (which reads only the pre-tick positions): a colliding
rocket is marked `Dead` (reporting 1 if `alive_count` must drop, i.e. the
rocket was `Alive`), else a rocket in the target is marked `Successful`,
else the rocket advances: `angle += dna.next_angle()` and the position
moves by `ROCKET_SPEED * (cos, sin)` of the updated angle. -/
def stepRocket (walls : List Rectangle) (target : Vector2)
    (sq cosR sinR : ℚ → ℚ) (r : Rocket) : Rocket × ℕ :=
  if collision_pos walls r.pos then
    ({ r with state := RocketState.Dead },
     if r.state = RocketState.Alive then 1 else 0)
  else if collision_target sq target r.pos then
    ({ r with state := RocketState.Successful }, 0)
  else
    let na := r.dna.next_angle
    let angle2 := r.angle + na.1
    ({ r with
       dna := na.2,
       angle := angle2,
       pos := ⟨r.pos.x + ROCKET_SPEED * cosR angle2,
               r.pos.y + ROCKET_SPEED * sinR angle2⟩ }, 0)

/-- Source `update`: at `frame_counter == GENE_LEN` restart and do nothing else;
otherwise classify and advance every rocket, decrement `alive_count` once
per rocket newly entering `Dead`, bump the frame counter and shrink the
timer rectangle. -/
def update (w : World) (sq cosR sinR : ℚ → ℚ) (initGenes : ℕ → ℕ → ℚ)
    (rnd : ℕ → SlotRnd) : Option World :=
  if w.frame_counter = GENE_LEN then
    w.restart sq initGenes rnd
  else
    let res := w.rockets.map (stepRocket w.walls w.target sq cosR sinR)
    some { w with
      rockets := res.map Prod.fst,
      alive_count := w.alive_count - ((res.map Prod.snd).sum : ℤ),
      frame_counter := w.frame_counter + 1,
      timer_rect :=
        { w.timer_rect with
          width := w.timer_rect.width - SCREEN_WIDTH / (GENE_LEN : ℚ) } }

/-! ### Iterated `next_angle` calls -/

/-- The `DNA` state after `k` calls of `next_angle`. -/
def callState (d : DNA) : ℕ → DNA
  | 0 => d
  | k + 1 => ((callState d k).next_angle).2

/-- The value returned by the `(k+1)`-th call of `next_angle` on `d`. -/
def callValue (d : DNA) (k : ℕ) : ℚ := ((callState d k).next_angle).1

lemma next_angle_genes (d : DNA) : (d.next_angle).2.genes = d.genes := by
  unfold DNA.next_angle
  split <;> rfl

lemma next_angle_cursor_le (d : DNA) (h : d.curr_gene ≤ GENE_LEN) :
    (d.next_angle).2.curr_gene ≤ GENE_LEN := by
  unfold DNA.next_angle
  split
  · exact h
  · show d.curr_gene + 1 ≤ GENE_LEN
    omega

lemma callState_genes (d : DNA) (k : ℕ) : (callState d k).genes = d.genes := by
  induction k with
  | zero => rfl
  | succ k ih => rw [callState, next_angle_genes, ih]

lemma callState_cursor (d : DNA) (h : d.curr_gene = 0) (k : ℕ) :
    (callState d k).curr_gene = min k GENE_LEN := by
  induction k with
  | zero => simp [callState, h]
  | succ k ih =>
    rw [callState]
    unfold DNA.next_angle
    split
    · next hge =>
        rw [ih]
        rw [ih] at hge
        omega
    · next hlt =>
        show (callState d k).curr_gene + 1 = min (k + 1) GENE_LEN
        rw [ih]
        rw [ih] at hlt
        omega

lemma callValue_sat (d : DNA) (h0 : d.curr_gene = 0) (k : ℕ)
    (hk : GENE_LEN - 1 ≤ k) :
    callValue d k = d.genes ⟨GENE_LEN - 1, by norm_num [GENE_LEN]⟩ := by
  have hc := callState_cursor d h0 k
  unfold callValue DNA.next_angle
  split
  · next hge => rw [callState_genes]
  · next hlt =>
      rw [callState_genes]
      have hc2 : (callState d k).curr_gene = GENE_LEN - 1 := by
        rw [hc]
        rw [hc] at hlt
        omega
      exact congrArg d.genes (Fin.ext hc2)

/-- C5: `next_angle` returns `genes[cursor]` and advances the cursor while
`cursor < GENE_LEN`; once `cursor ≥ GENE_LEN` it returns
`genes[GENE_LEN-1]` without advancing; the cursor never exceeds
`GENE_LEN`; and starting from cursor 0 every call from the `GENE_LEN`-th
on returns the value of the `GENE_LEN`-th call. -/
theorem c5_next_angle_saturating :
    (∀ (d : DNA) (h : d.curr_gene < GENE_LEN),
       (d.next_angle).1 = d.genes ⟨d.curr_gene, h⟩ ∧
       (d.next_angle).2 = { d with curr_gene := d.curr_gene + 1 }) ∧
    (∀ d : DNA, GENE_LEN ≤ d.curr_gene →
       (d.next_angle).1 = d.genes ⟨GENE_LEN - 1, by norm_num [GENE_LEN]⟩ ∧
       (d.next_angle).2 = d) ∧
    (∀ d : DNA, d.curr_gene ≤ GENE_LEN → (d.next_angle).2.curr_gene ≤ GENE_LEN) ∧
    (∀ (d : DNA) (k : ℕ), d.curr_gene = 0 → GENE_LEN - 1 ≤ k →
       callValue d k = callValue d (GENE_LEN - 1)) := by
  refine ⟨fun d h => ?_, fun d h => ?_, fun d h => next_angle_cursor_le d h,
    fun d k h0 hk => ?_⟩
  · unfold DNA.next_angle
    rw [dif_neg (by omega)]
    exact ⟨rfl, rfl⟩
  · unfold DNA.next_angle
    rw [dif_pos h]
    exact ⟨rfl, rfl⟩
  · rw [callValue_sat d h0 k hk, callValue_sat d h0 (GENE_LEN - 1) le_rfl]

/-- Witness for C5 at concrete inputs. -/
theorem c5_next_angle_saturating_witness :
    ((DNA.new.next_angle).1 = DNA.new.genes ⟨0, by norm_num [GENE_LEN]⟩ ∧
     (DNA.new.next_angle).2 = { DNA.new with curr_gene := 1 }) ∧
    callValue DNA.new 500 = callValue DNA.new (GENE_LEN - 1) :=
  ⟨c5_next_angle_saturating.1 DNA.new (by norm_num [GENE_LEN, DNA.new]),
   c5_next_angle_saturating.2.2.2 DNA.new 500 rfl (by norm_num [GENE_LEN])⟩

/-- C9: single-point crossover at split `k < GENE_LEN`: gene `i` comes
from `parent_a` for `i < k` and from `parent_b` for `i ≥ k`, and the
child's fitness and cursor are zero, not inherited. -/
theorem c9_crossover_split (parent_a parent_b : DNA) (k : ℕ) (_hk : k < GENE_LEN) :
    (∀ i : Fin GENE_LEN,
       ((i : ℕ) < k →
          (DNA.crossover k parent_a parent_b).genes i = parent_a.genes i) ∧
       (k ≤ (i : ℕ) →
          (DNA.crossover k parent_a parent_b).genes i = parent_b.genes i)) ∧
    (DNA.crossover k parent_a parent_b).fitness = 0 ∧
    (DNA.crossover k parent_a parent_b).curr_gene = 0 := by
  refine ⟨fun i => ⟨fun h => ?_, fun h => ?_⟩, rfl, rfl⟩
  · show (if (i : ℕ) < k then parent_a.genes i else parent_b.genes i) = parent_a.genes i
    rw [if_pos h]
  · show (if (i : ℕ) < k then parent_a.genes i else parent_b.genes i) = parent_b.genes i
    rw [if_neg (by omega)]

/-- Witness for C9 at concrete inputs. -/
theorem c9_crossover_split_witness :
    (DNA.crossover 3 DNA.new DNA.new).genes ⟨2, by norm_num [GENE_LEN]⟩ =
      DNA.new.genes ⟨2, by norm_num [GENE_LEN]⟩ ∧
    (DNA.crossover 3 DNA.new DNA.new).genes ⟨7, by norm_num [GENE_LEN]⟩ =
      DNA.new.genes ⟨7, by norm_num [GENE_LEN]⟩ ∧
    (DNA.crossover 3 DNA.new DNA.new).fitness = 0 ∧
    (DNA.crossover 3 DNA.new DNA.new).curr_gene = 0 := by
  have h := c9_crossover_split DNA.new DNA.new 3 (by norm_num [GENE_LEN])
  exact ⟨(h.1 ⟨2, by norm_num [GENE_LEN]⟩).1 (by norm_num),
    (h.1 ⟨7, by norm_num [GENE_LEN]⟩).2 (by norm_num), h.2.1, h.2.2⟩

/-! ### The mating pool -/

/-- Every index pushed while enumerating from `s` lies in `[s, s + length)`. -/
lemma pool_mem_bound (l : List Rocket) (s x : ℕ)
    (hx : x ∈ (List.enumFrom s l).flatMap (fun p => List.replicate (weight p.2) p.1)) :
    s ≤ x ∧ x < s + l.length := by
  induction l generalizing s with
  | nil => simp at hx
  | cons r t ih =>
    simp only [List.enumFrom, List.flatMap_cons, List.mem_append] at hx
    cases hx with
    | inl h =>
      have hxs := List.eq_of_mem_replicate h
      subst hxs
      simp only [List.length_cons]
      omega
    | inr h =>
      have := ih (s + 1) h
      simp only [List.length_cons]
      omega

lemma pool_count_lt (l : List Rocket) (s i : ℕ) (h : i < s) :
    ((List.enumFrom s l).flatMap
      (fun p => List.replicate (weight p.2) p.1)).count i = 0 := by
  induction l generalizing s with
  | nil => rfl
  | cons r t ih =>
    simp only [List.enumFrom, List.flatMap_cons]
    have hne : (s == i) = false := beq_eq_false_iff_ne.mpr (by omega)
    rw [List.count_append, List.count_replicate, hne, ih (s + 1) (by omega)]
    simp

lemma pool_count_get (l : List Rocket) (s k : ℕ) (h : k < l.length) :
    ((List.enumFrom s l).flatMap
      (fun p => List.replicate (weight p.2) p.1)).count (s + k) =
      weight (l.get ⟨k, h⟩) := by
  induction l generalizing s k with
  | nil => simp at h
  | cons r t ih =>
    simp only [List.enumFrom, List.flatMap_cons]
    rw [List.count_append]
    cases k with
    | zero =>
      rw [Nat.add_zero, List.count_replicate_self,
        pool_count_lt t (s + 1) s (by omega)]
      simp
    | succ k2 =>
      have hne : (s == s + (k2 + 1)) = false := beq_eq_false_iff_ne.mpr (by omega)
      rw [List.count_replicate, hne]
      have hsk : s + (k2 + 1) = (s + 1) + k2 := by omega
      rw [hsk, ih (s + 1) k2 (by simpa using h)]
      simp

lemma pool_length (l : List Rocket) (s : ℕ) :
    ((List.enumFrom s l).flatMap
      (fun p => List.replicate (weight p.2) p.1)).length =
      (l.map weight).sum := by
  induction l generalizing s with
  | nil => rfl
  | cons r t ih =>
    simp only [List.enumFrom, List.flatMap_cons]
    rw [List.length_append, List.length_replicate, ih (s + 1)]
    simp

/-- C1 (amended): after `gen_mating_pool`, index `i` occurs exactly
`weight` many times where the weight is `⌊(fitness × 100) × multiplier⌋`
(the state multiplier is applied BEFORE flooring, and the `as usize` cast
clamps negative values to 0), and the pool length is the sum of these
weights. -/
theorem c1_mating_pool_counts (w : World) (i : ℕ) (h : i < w.rockets.length) :
    ((w.gen_mating_pool).mating_pool).count i = weight (w.rockets.get ⟨i, h⟩) ∧
    ((w.gen_mating_pool).mating_pool).length = (w.rockets.map weight).sum := by
  constructor
  · have hc := pool_count_get w.rockets 0 i h
    simpa [World.gen_mating_pool, List.enum] using hc
  · simpa [World.gen_mating_pool, List.enum] using pool_length w.rockets 0

/-- A world with a single `Successful` rocket of fitness `0.019`. -/
def cexRocket1 : Rocket :=
  { Rocket.new startPos with
    state := RocketState.Successful,
    dna := { DNA.new with fitness := 19 / 1000 } }

def cexWorld1 : World :=
  { rockets := [cexRocket1], alive_count := 1, walls := [], target := ⟨100, 100⟩,
    frame_counter := 0, timer_rect := ⟨0, 0, 0, 0⟩, generation := 0,
    mating_pool := [] }

lemma weight_cexRocket1 : weight cexRocket1 = 3 := by
  have h1 : stateScaled cexRocket1 = 19 / 5 := by
    show (19 / 1000 * 100 : ℚ) * 2 = 19 / 5
    norm_num
  show (⌊stateScaled cexRocket1⌋).toNat = 3
  rw [h1]
  have h2 : ⌊(19 / 5 : ℚ)⌋ = 3 := by
    rw [Int.floor_eq_iff]; norm_num
  rw [h2]
  rfl

lemma cexPool : (cexWorld1.gen_mating_pool).mating_pool = List.replicate 3 0 := by
  show (List.enum [cexRocket1]).flatMap (fun p => List.replicate (weight p.2) p.1) = _
  rw [show List.enum [cexRocket1] = [(0, cexRocket1)] from rfl, List.flatMap_cons]
  simp [weight_cexRocket1]

/-- C1 counterexample: for a `Successful` rocket with fitness `0.019` the
code pushes its index `⌊(0.019 × 100) × 2⌋ = ⌊3.8⌋ = 3` times, but the
claim's weight — `⌊fitness × 100⌋` floored first and then scaled by the
state multiplier `2.0` — is `⌊1.9⌋ × 2 = 2 ≠ 3`. -/
theorem c1_counterexample :
    cexRocket1.state = RocketState.Successful ∧
    cexRocket1.dna.fitness = 19 / 1000 ∧
    ((cexWorld1.gen_mating_pool).mating_pool).count 0 = 3 ∧
    (⌊cexRocket1.dna.fitness * 100⌋).toNat * 2 = 2 := by
  refine ⟨rfl, rfl, ?_, ?_⟩
  · rw [cexPool]
    simp
  · have h2 : ⌊cexRocket1.dna.fitness * 100⌋ = 1 := by
      show ⌊(19 / 1000 * 100 : ℚ)⌋ = 1
      rw [Int.floor_eq_iff]; norm_num
    rw [h2]
    rfl

/-- Witness for C1 at a concrete world. -/
theorem c1_mating_pool_counts_witness :
    ((cexWorld1.gen_mating_pool).mating_pool).count 0 =
      weight (cexWorld1.rockets.get ⟨0, by decide⟩) ∧
    ((cexWorld1.gen_mating_pool).mating_pool).length =
      (cexWorld1.rockets.map weight).sum :=
  c1_mating_pool_counts cexWorld1 0 (by decide)

/-- C10: every mating-pool entry produced by `gen_mating_pool` is a valid
rocket index, and looking up the referenced rocket succeeds. -/
theorem c10_pool_indices_valid (w : World) (x : ℕ)
    (hx : x ∈ (w.gen_mating_pool).mating_pool) :
    x < w.rockets.length ∧ ∃ r, (w.gen_mating_pool).rockets[x]? = some r := by
  have hb := pool_mem_bound w.rockets 0 x
    (by simpa [World.gen_mating_pool, List.enum] using hx)
  have hlt : x < w.rockets.length := by omega
  refine ⟨hlt, ?_⟩
  have hlt2 : x < (w.gen_mating_pool).rockets.length := hlt
  exact ⟨_, List.getElem?_eq_getElem hlt2⟩

/-- Witness for C10 at a concrete world. -/
theorem c10_pool_indices_valid_witness :
    0 < cexWorld1.rockets.length ∧
    ∃ r, (cexWorld1.gen_mating_pool).rockets[0]? = some r :=
  c10_pool_indices_valid cexWorld1 0 (by rw [cexPool]; simp)

/-! ### Fitness -/

/-- The sum of all rockets' freshly computed distances to the target. -/
def distSum (w : World) (sq : ℚ → ℚ) : ℚ :=
  (w.rockets.map (fun r => sq (distSq w.target r.pos))).sum

lemma calc_fitness_get (w : World) (sq : ℚ → ℚ) (i : ℕ) :
    (w.calc_fitness sq).rockets[i]? = (w.rockets[i]?).map (fun r =>
      { r with
        dist_from_target := sq (distSq w.target r.pos),
        dna := { r.dna with
                 fitness := 1 - sq (distSq w.target r.pos) / distSum w sq } }) := by
  simp only [World.calc_fitness, World.calc_dist_from_target, List.map_map,
    List.getElem?_map, distSum]
  cases w.rockets[i]? with
  | none => rfl
  | some r => rfl

/-- C2 (amended): after `calc_fitness`, every rocket's stored distance is
the (modelled) Euclidean distance to the target and its fitness is
`1 − dist / Σ dists`; given that `sq` is nonnegative (as `f32::sqrt` is on
these inputs) and the distance sum is positive, each fitness is `≤ 1`,
with equality exactly when the rocket's own distance is `0`; and a rocket
with smaller distance gets at least as large a fitness. -/
theorem c2_relative_fitness (w : World) (sq : ℚ → ℚ) :
    (∀ (i : ℕ) (r : Rocket), w.rockets[i]? = some r →
       ∃ r2, (w.calc_fitness sq).rockets[i]? = some r2 ∧
         r2.dist_from_target = sq (distSq w.target r.pos) ∧
         r2.dna.fitness = 1 - r2.dist_from_target / distSum w sq) ∧
    ((∀ x, 0 ≤ sq x) → 0 < distSum w sq →
       ∀ (i : ℕ) (r : Rocket), w.rockets[i]? = some r →
         ∀ r2, (w.calc_fitness sq).rockets[i]? = some r2 →
           r2.dna.fitness ≤ 1 ∧ (r2.dna.fitness = 1 ↔ r2.dist_from_target = 0)) ∧
    (0 < distSum w sq →
       ∀ (i j : ℕ) (ri rj : Rocket),
         w.rockets[i]? = some ri → w.rockets[j]? = some rj →
         sq (distSq w.target ri.pos) ≤ sq (distSq w.target rj.pos) →
         ∀ ri2 rj2, (w.calc_fitness sq).rockets[i]? = some ri2 →
           (w.calc_fitness sq).rockets[j]? = some rj2 →
           rj2.dna.fitness ≤ ri2.dna.fitness) := by
  refine ⟨fun i r hr => ?_, fun hs hS i r hr r2 hr2 => ?_, ?_⟩
  · refine ⟨_, by rw [calc_fitness_get, hr, Option.map_some'], rfl, rfl⟩
  · rw [calc_fitness_get, hr, Option.map_some'] at hr2
    obtain hr2e := (Option.some_inj.mp hr2).symm
    subst hr2e
    have hd : 0 ≤ sq (distSq w.target r.pos) := hs _
    have hdiv : 0 ≤ sq (distSq w.target r.pos) / distSum w sq :=
      div_nonneg hd (le_of_lt hS)
    constructor
    · simpa using hdiv
    · constructor
      · intro h1
        have : sq (distSq w.target r.pos) / distSum w sq = 0 := by linarith
        rcases div_eq_zero_iff.mp this with h0 | h0
        · simpa using h0
        · exact absurd h0 (ne_of_gt hS)
      · intro h0
        simp only [h0] at hdiv ⊢
        have : sq (distSq w.target r.pos) = 0 := h0
        rw [this]
        simp
  · intro hS i j ri rj hri hrj hle ri2 rj2 hri2 hrj2
    rw [calc_fitness_get, hri, Option.map_some'] at hri2
    rw [calc_fitness_get, hrj, Option.map_some'] at hrj2
    obtain h1 := (Option.some_inj.mp hri2).symm
    obtain h2 := (Option.some_inj.mp hrj2).symm
    subst h1
    subst h2
    have hdd : sq (distSq w.target ri.pos) / distSum w sq ≤
        sq (distSq w.target rj.pos) / distSum w sq := by
      apply div_le_div_of_nonneg_right hle (le_of_lt hS)
    simp only
    linarith

/-- The modelled `f32::sqrt` used in concrete runs below: it agrees with
the true square root on every input that actually occurs (`0` and `25`). -/
def sqC : ℚ → ℚ := fun x => if x = 25 then 5 else 0

lemma sqC_nonneg : ∀ x, 0 ≤ sqC x := by
  intro x
  unfold sqC
  split <;> norm_num

def rktA : Rocket := Rocket.new ⟨100, 100⟩
def rktB : Rocket := Rocket.new ⟨103, 104⟩

/-- A world whose first rocket sits exactly on the target center. -/
def c2World : World :=
  { rockets := [rktA, rktB], alive_count := 2, walls := [], target := ⟨100, 100⟩,
    frame_counter := 0, timer_rect := ⟨0, 0, 0, 0⟩, generation := 0,
    mating_pool := [] }

lemma distSum_c2 : distSum c2World sqC = 5 := by
  norm_num [distSum, c2World, rktA, rktB, Rocket.new, distSq, sqC]

/-- C2 counterexample: with a rocket at distance `0` from the target
(its `sqrt` input is `0`, and `sqC` matches the true square root on both
occurring inputs `0` and `25`), `calc_fitness` assigns it fitness exactly
`1`, which does not lie in the open interval `(−∞, 1)`. -/
theorem c2_counterexample :
    (∀ x, 0 ≤ sqC x) ∧ sqC 0 = 0 ∧ sqC 25 = 5 ∧ (sqC 25) ^ 2 = 25 ∧
    distSq c2World.target rktA.pos = 0 ∧
    distSq c2World.target rktB.pos = 25 ∧
    ((c2World.calc_fitness sqC).rockets.map (fun r => r.dna.fitness)) = [1, 0] ∧
    ¬ (((c2World.calc_fitness sqC).rockets.getD 0 default).dna.fitness < 1) := by
  refine ⟨sqC_nonneg, by norm_num [sqC], by norm_num [sqC], by norm_num [sqC],
    by norm_num [c2World, rktA, Rocket.new, distSq],
    by norm_num [c2World, rktB, Rocket.new, distSq], ?_, ?_⟩
  · norm_num [World.calc_fitness, World.calc_dist_from_target, c2World, rktA,
      rktB, Rocket.new, distSq, sqC]
  · norm_num [World.calc_fitness, World.calc_dist_from_target, c2World, rktA,
      rktB, Rocket.new, distSq, sqC]

/-- Witness for C2 at a concrete world. -/
theorem c2_relative_fitness_witness :
    ∃ r2, (c2World.calc_fitness sqC).rockets[0]? = some r2 ∧
      r2.dist_from_target = sqC (distSq c2World.target rktA.pos) ∧
      r2.dna.fitness = 1 - r2.dist_from_target / distSum c2World sqC ∧
      r2.dna.fitness ≤ 1 := by
  obtain ⟨r2, h2, hd, hf⟩ := (c2_relative_fitness c2World sqC).1 0 rktA rfl
  have hS : 0 < distSum c2World sqC := by rw [distSum_c2]; norm_num
  have hle := ((c2_relative_fitness c2World sqC).2.1 sqC_nonneg hS 0 rktA rfl r2 h2).1
  exact ⟨r2, h2, hd, hf, hle⟩

/-! ### Per-rocket state invariants and the tick step -/

/-- State/position consistency: a `Dead` rocket sits on a colliding
position, a `Successful` rocket sits on a non-colliding position inside
the target.  This holds for every rocket arising in a run, because the
state is only ever set based on the collision tests at the rocket's
current (then frozen) position. -/
def rocketConsistent (walls : List Rectangle) (target : Vector2) (sq : ℚ → ℚ)
    (r : Rocket) : Prop :=
  (r.state = RocketState.Dead → collision_pos walls r.pos) ∧
  (r.state = RocketState.Successful →
    ¬ collision_pos walls r.pos ∧ collision_target sq target r.pos)

def stateConsistent (w : World) (sq : ℚ → ℚ) : Prop :=
  ∀ r ∈ w.rockets, rocketConsistent w.walls w.target sq r

lemma set_state_eq (r : Rocket) (s : RocketState) (h : r.state = s) :
    { r with state := s } = r := by
  cases r
  cases h
  rfl

lemma alive_consistent (walls : List Rectangle) (target : Vector2)
    (sq : ℚ → ℚ) (r : Rocket) (h : r.state = RocketState.Alive) :
    rocketConsistent walls target sq r := by
  constructor
  · intro hd
    rw [h] at hd
    exact absurd hd (by decide)
  · intro hs
    rw [h] at hs
    exact absurd hs (by decide)

lemma stepRocket_frozen (walls : List Rectangle) (target : Vector2)
    (sq cosR sinR : ℚ → ℚ) (r : Rocket)
    (hc : rocketConsistent walls target sq r)
    (ht : r.state = RocketState.Dead ∨ r.state = RocketState.Successful) :
    stepRocket walls target sq cosR sinR r = (r, 0) := by
  unfold stepRocket
  cases ht with
  | inl hdead =>
    have hcol : collision_pos walls r.pos := hc.1 hdead
    rw [if_pos hcol, set_state_eq r RocketState.Dead hdead, hdead]
    simp
  | inr hsucc =>
    have hcol := (hc.2 hsucc).1
    have htgt := (hc.2 hsucc).2
    rw [if_neg hcol, if_pos htgt, set_state_eq r RocketState.Successful hsucc]

lemma stepRocket_consistent (walls : List Rectangle) (target : Vector2)
    (sq cosR sinR : ℚ → ℚ) (r : Rocket)
    (hc : rocketConsistent walls target sq r) :
    rocketConsistent walls target sq (stepRocket walls target sq cosR sinR r).1 := by
  obtain ⟨dna0, pos0, st0, ang0, dist0⟩ := r
  unfold rocketConsistent at hc ⊢
  unfold stepRocket
  by_cases h1 : collision_pos walls pos0
  · rw [if_pos h1]
    refine ⟨fun _ => h1, fun hs => ?_⟩
    simp at hs
  · rw [if_neg h1]
    by_cases h2 : collision_target sq target pos0
    · rw [if_pos h2]
      refine ⟨fun hs => ?_, fun _ => ⟨h1, h2⟩⟩
      simp at hs
    · rw [if_neg h2]
      refine ⟨fun hs => ?_, fun hs => ?_⟩
      · exact absurd (hc.1 hs) h1
      · exact absurd (hc.2 hs).2 h2

lemma stepRocket_snd_zero (walls : List Rectangle) (target : Vector2)
    (sq cosR sinR : ℚ → ℚ) (r : Rocket) (h : r.state ≠ RocketState.Alive) :
    (stepRocket walls target sq cosR sinR r).2 = 0 := by
  unfold stepRocket
  split
  · simp [h]
  · split <;> rfl

/-- The number of `Dead` rockets, as the tick loop affects it. -/
def deadCount (l : List Rocket) : ℕ :=
  (l.map (fun r => if r.state = RocketState.Dead then 1 else 0)).sum

/-- The shared alive-count invariant: `alive_count` = population size
minus the number of rockets currently `Dead`. -/
def aliveInv (w : World) : Prop :=
  w.alive_count = (w.rockets.length : ℤ) - (deadCount w.rockets : ℤ)

lemma step_dead_delta (walls : List Rectangle) (target : Vector2)
    (sq cosR sinR : ℚ → ℚ) (r : Rocket)
    (hc : rocketConsistent walls target sq r) :
    (if (stepRocket walls target sq cosR sinR r).1.state = RocketState.Dead
      then 1 else 0)
      = (if r.state = RocketState.Dead then 1 else 0)
        + (stepRocket walls target sq cosR sinR r).2 := by
  obtain ⟨dna0, pos0, st0, ang0, dist0⟩ := r
  unfold stepRocket
  by_cases h1 : collision_pos walls pos0
  · rw [if_pos h1]
    cases st0 with
    | Alive => simp
    | Dead => simp
    | Successful => exact absurd h1 (hc.2 rfl).1
  · rw [if_neg h1]
    by_cases h2 : collision_target sq target pos0
    · rw [if_pos h2]
      cases st0 with
      | Alive => simp
      | Successful => simp
      | Dead => exact absurd (hc.1 rfl) h1
    · rw [if_neg h2]
      simp

lemma deadCount_step (walls : List Rectangle) (target : Vector2)
    (sq cosR sinR : ℚ → ℚ) (l : List Rocket)
    (hc : ∀ r ∈ l, rocketConsistent walls target sq r) :
    deadCount (l.map (fun r => (stepRocket walls target sq cosR sinR r).1))
      = deadCount l
        + (l.map (fun r => (stepRocket walls target sq cosR sinR r).2)).sum := by
  induction l with
  | nil => rfl
  | cons r t ih =>
    have hr := hc r (List.mem_cons_self r t)
    have ht := fun x hx => hc x (List.mem_cons_of_mem r hx)
    have hd := step_dead_delta walls target sq cosR sinR r hr
    simp only [deadCount, List.map_cons, List.sum_cons] at *
    rw [hd, ih ht]
    omega

lemma deadCount_eq_zero (l : List Rocket)
    (h : ∀ r ∈ l, r.state = RocketState.Alive) : deadCount l = 0 := by
  induction l with
  | nil => rfl
  | cons r t ih =>
    simp only [deadCount, List.map_cons, List.sum_cons] at *
    rw [h r (List.mem_cons_self r t), if_neg (by decide), Nat.zero_add]
    exact ih fun x hx => h x (List.mem_cons_of_mem r hx)

lemma new_all_alive (g : ℕ → ℕ → ℚ) :
    ∀ r ∈ (World.new g).rockets, r.state = RocketState.Alive := by
  intro r hr
  simp only [World.new, List.mem_map, List.mem_range] at hr
  obtain ⟨j, _, rfl⟩ := hr
  rfl

/-- The non-rollover branch of `update`, written out. -/
lemma update_step (w : World) (sq cosR sinR : ℚ → ℚ) (g : ℕ → ℕ → ℚ)
    (rnd : ℕ → SlotRnd) (hf : w.frame_counter ≠ GENE_LEN) :
    update w sq cosR sinR g rnd = some { w with
      rockets :=
        (w.rockets.map (stepRocket w.walls w.target sq cosR sinR)).map Prod.fst,
      alive_count := w.alive_count -
        (((w.rockets.map (stepRocket w.walls w.target sq cosR sinR)).map
            Prod.snd).sum : ℤ),
      frame_counter := w.frame_counter + 1,
      timer_rect :=
        { w.timer_rect with
          width := w.timer_rect.width - SCREEN_WIDTH / (GENE_LEN : ℚ) } } := by
  unfold update
  rw [if_neg hf]

/-! ### Selection and restart -/

lemma gen_pool_bound (w : World) :
    ∀ x ∈ (w.gen_mating_pool).mating_pool, x < (w.gen_mating_pool).rockets.length := by
  intro x hx
  have hb := pool_mem_bound w.rockets 0 x
    (by simpa [World.gen_mating_pool, List.enum] using hx)
  show x < w.rockets.length
  omega

lemma gen_pool_length (w : World) :
    (w.gen_mating_pool).mating_pool.length = (w.rockets.map weight).sum := by
  simpa [World.gen_mating_pool, List.enum] using pool_length w.rockets 0

lemma selectSlot_spec (w : World) (s : SlotRnd)
    (hlen : 0 < w.mating_pool.length)
    (hb : ∀ x ∈ w.mating_pool, x < w.rockets.length) :
    ∃ r, w.selectSlot s = some r ∧ r.pos = startPos ∧ r.angle = -90 ∧
      r.state = RocketState.Alive ∧ r.dna.curr_gene = 0 ∧ r.dna.fitness = 0 := by
  unfold World.selectSlot
  rw [dif_pos hlen]
  rw [List.getElem?_eq_getElem (hb _ (List.get_mem w.mating_pool _ _)),
    List.getElem?_eq_getElem (hb _ (List.get_mem w.mating_pool _ _))]
  exact ⟨_, rfl, rfl, rfl, rfl, rfl, rfl⟩

lemma selectSlot_mem (w : World) (s : SlotRnd) (r : Rocket)
    (h : w.selectSlot s = some r) :
    r.pos = startPos ∧ r.angle = -90 ∧ r.state = RocketState.Alive ∧
      r.dna.curr_gene = 0 := by
  unfold World.selectSlot at h
  split at h
  · split at h
    · injection h with h2
      subst h2
      exact ⟨rfl, rfl, rfl, rfl⟩
    · exact absurd h (by simp)
  · exact absurd h (by simp)

lemma selectMany_spec (w : World) (rnd : ℕ → SlotRnd) (n : ℕ)
    (hlen : 0 < w.mating_pool.length)
    (hb : ∀ x ∈ w.mating_pool, x < w.rockets.length) :
    ∃ l, w.selectMany rnd n = some l ∧ l.length = n := by
  induction n with
  | zero => exact ⟨[], rfl, rfl⟩
  | succ n ih =>
    obtain ⟨l, hl, hln⟩ := ih
    obtain ⟨r, hr, -⟩ := selectSlot_spec w (rnd n) hlen hb
    refine ⟨r :: l, ?_, by simp [hln]⟩
    unfold World.selectMany
    rw [hr, hl]

lemma selectMany_mem (w : World) (rnd : ℕ → SlotRnd) (n : ℕ) (l : List Rocket)
    (h : w.selectMany rnd n = some l) :
    ∀ r ∈ l, r.pos = startPos ∧ r.angle = -90 ∧ r.state = RocketState.Alive ∧
      r.dna.curr_gene = 0 := by
  induction n generalizing l with
  | zero =>
    simp only [World.selectMany, Option.some_inj] at h
    subst h
    intro r hr
    simp at hr
  | succ n ih =>
    unfold World.selectMany at h
    cases hs : w.selectSlot (rnd n) with
    | none => rw [hs] at h; exact absurd h (by simp)
    | some r =>
      cases hm : w.selectMany rnd n with
      | none => rw [hs, hm] at h; exact absurd h (by simp)
      | some t =>
        rw [hs, hm] at h
        injection h with h2
        subst h2
        intro x hx
        rcases List.mem_cons.mp hx with hx | hx
        · subst hx
          exact selectSlot_mem w (rnd n) x hs
        · exact ih t hm x hx

lemma selectMany_none (w : World) (rnd : ℕ → SlotRnd) (n : ℕ)
    (hp : w.mating_pool = []) :
    w.selectMany rnd (n + 1) = none := by
  have hs : w.selectSlot (rnd n) = none := by
    unfold World.selectSlot
    rw [dif_neg (by rw [hp]; simp)]
  unfold World.selectMany
  rw [hs]

lemma restart_spec (w : World) (sq : ℚ → ℚ) (g : ℕ → ℕ → ℚ) (rnd : ℕ → SlotRnd)
    (hp : ((w.calc_fitness sq).gen_mating_pool).mating_pool ≠ []) :
    ∃ l, w.restart sq g rnd =
        some { World.new g with rockets := l, generation := w.generation + 1 } ∧
      l.length = ROCKET_COUNT ∧
      ∀ r ∈ l, r.pos = startPos ∧ r.angle = -90 ∧
        r.state = RocketState.Alive ∧ r.dna.curr_gene = 0 := by
  have hlen : 0 < ((w.calc_fitness sq).gen_mating_pool).mating_pool.length :=
    List.length_pos.mpr hp
  obtain ⟨l, hsel, hlenl⟩ := selectMany_spec ((w.calc_fitness sq).gen_mating_pool)
    rnd (World.new g).rockets.length hlen (gen_pool_bound (w.calc_fitness sq))
  refine ⟨l, ?_, ?_, selectMany_mem _ rnd _ l hsel⟩
  · simp only [World.restart]
    rw [hsel]
  · rw [hlenl]
    simp [World.new]

/-- Function `restart` only ever returns worlds built from `World.new` with the
selected rockets and a bumped generation counter. -/
lemma restart_shape (w : World) (sq : ℚ → ℚ) (g : ℕ → ℕ → ℚ)
    (rnd : ℕ → SlotRnd) (w2 : World) (h : w.restart sq g rnd = some w2) :
    ∃ l, ((w.calc_fitness sq).gen_mating_pool).selectMany rnd
        (World.new g).rockets.length = some l ∧
      w2 = { World.new g with rockets := l, generation := w.generation + 1 } := by
  simp only [World.restart] at h
  split at h
  · next l hl =>
      injection h with h2
      exact ⟨l, hl, h2.symm⟩
  · exact absurd h (by simp)

lemma update_rollover (w : World) (sq cosR sinR : ℚ → ℚ) (g : ℕ → ℕ → ℚ)
    (rnd : ℕ → SlotRnd) (hf : w.frame_counter = GENE_LEN) :
    update w sq cosR sinR g rnd = w.restart sq g rnd := by
  unfold update
  rw [if_pos hf]

/-- C3: state/position consistency holds for fresh worlds, is preserved by
every successful `update`, and under it every `Dead` or `Successful`
rocket passes through a non-rollover `update` completely unchanged
(same position, heading and state). -/
theorem c3_terminal_freeze :
    (∀ (g : ℕ → ℕ → ℚ) (sq : ℚ → ℚ), stateConsistent (World.new g) sq) ∧
    (∀ (w : World) (sq cosR sinR : ℚ → ℚ) (g : ℕ → ℕ → ℚ) (rnd : ℕ → SlotRnd)
       (w2 : World), update w sq cosR sinR g rnd = some w2 →
       stateConsistent w sq → stateConsistent w2 sq) ∧
    (∀ (w : World) (sq cosR sinR : ℚ → ℚ) (g : ℕ → ℕ → ℚ) (rnd : ℕ → SlotRnd)
       (i : ℕ) (r : Rocket), stateConsistent w sq →
       w.frame_counter ≠ GENE_LEN → w.rockets[i]? = some r →
       (r.state = RocketState.Dead ∨ r.state = RocketState.Successful) →
       ∃ w2, update w sq cosR sinR g rnd = some w2 ∧ w2.rockets[i]? = some r) := by
  refine ⟨fun g sq r hr => alive_consistent _ _ _ r (new_all_alive g r hr),
    fun w sq cosR sinR g rnd w2 hu hcons => ?_,
    fun w sq cosR sinR g rnd i r hcons hf hr ht => ?_⟩
  · by_cases hf : w.frame_counter = GENE_LEN
    · rw [update_rollover w sq cosR sinR g rnd hf] at hu
      obtain ⟨l, hsel, rfl⟩ := restart_shape w sq g rnd w2 hu
      intro r hr
      have hall := selectMany_mem _ rnd _ l hsel r hr
      exact alive_consistent _ _ _ r hall.2.2.1
    · rw [update_step w sq cosR sinR g rnd hf] at hu
      injection hu with hu2
      subst hu2
      intro r2 hr2
      simp only [List.map_map, List.mem_map] at hr2
      obtain ⟨r, hrm, rfl⟩ := hr2
      exact stepRocket_consistent w.walls w.target sq cosR sinR r (hcons r hrm)
  · refine ⟨_, update_step w sq cosR sinR g rnd hf, ?_⟩
    have hmem : r ∈ w.rockets := List.getElem?_mem hr
    have hfr := stepRocket_frozen w.walls w.target sq cosR sinR r (hcons r hmem) ht
    simp only [List.map_map, List.getElem?_map, hr, Option.map_some']
    simp [Function.comp, hfr]

/-- C6: in a non-rollover tick, a rocket whose position satisfies a
collision predicate is recorded `Dead`, even if it simultaneously lies
inside the target radius (the failure check runs first). -/
theorem c6_collision_priority (w : World) (sq cosR sinR : ℚ → ℚ)
    (g : ℕ → ℕ → ℚ) (rnd : ℕ → SlotRnd) (i : ℕ) (r : Rocket)
    (hf : w.frame_counter ≠ GENE_LEN) (hr : w.rockets[i]? = some r)
    (hcol : collision_pos w.walls r.pos)
    (_htgt : collision_target sq w.target r.pos) :
    ∃ w2, update w sq cosR sinR g rnd = some w2 ∧
      w2.rockets[i]? = some { r with state := RocketState.Dead } := by
  refine ⟨_, update_step w sq cosR sinR g rnd hf, ?_⟩
  have hstep : (stepRocket w.walls w.target sq cosR sinR r).1 =
      { r with state := RocketState.Dead } := by
    unfold stepRocket
    rw [if_pos hcol]
  simp only [List.map_map, List.getElem?_map, hr, Option.map_some']
  simp [Function.comp, hstep]

/-- C7: the alive-count invariant `alive_count = population − #Dead` holds
for fresh worlds; a rocket that is not `Alive` (already `Dead` or
`Successful`) never contributes a decrement; and the invariant is
preserved by every non-rollover tick. -/
theorem c7_alive_count_invariant :
    (∀ g : ℕ → ℕ → ℚ, aliveInv (World.new g)) ∧
    (∀ (walls : List Rectangle) (target : Vector2) (sq cosR sinR : ℚ → ℚ)
       (r : Rocket), r.state ≠ RocketState.Alive →
       (stepRocket walls target sq cosR sinR r).2 = 0) ∧
    (∀ (w : World) (sq cosR sinR : ℚ → ℚ) (g : ℕ → ℕ → ℚ) (rnd : ℕ → SlotRnd),
       stateConsistent w sq → aliveInv w → w.frame_counter ≠ GENE_LEN →
       ∃ w2, update w sq cosR sinR g rnd = some w2 ∧ aliveInv w2) := by
  refine ⟨fun g => ?_,
    fun walls target sq cosR sinR r h => stepRocket_snd_zero walls target sq cosR sinR r h,
    fun w sq cosR sinR g rnd hcons ha hf => ?_⟩
  · unfold aliveInv
    rw [deadCount_eq_zero _ (new_all_alive g)]
    simp [World.new]
  · refine ⟨_, update_step w sq cosR sinR g rnd hf, ?_⟩
    unfold aliveInv at ha ⊢
    simp only [List.map_map, List.length_map, Function.comp_def]
    have hD := deadCount_step w.walls w.target sq cosR sinR w.rockets hcons
    rw [hD, ha]
    push_cast
    ring

/-! ### Concrete witness worlds -/

def qZero : ℚ → ℚ := fun _ => 0
def zeroRnd : ℕ → SlotRnd := fun _ => ⟨0, 0, 0, fun _ => none⟩
def zeroGenes : ℕ → ℕ → ℚ := fun _ _ => 0

def deadRocket : Rocket := { Rocket.new ⟨-5, 10⟩ with state := RocketState.Dead }

def c3World : World :=
  { rockets := [deadRocket], alive_count := 0, walls := [], target := ⟨100, 100⟩,
    frame_counter := 0, timer_rect := ⟨0, 0, 0, 0⟩, generation := 0,
    mating_pool := [] }

lemma deadRocket_collision : collision_pos [] deadRocket.pos := by
  refine Or.inl (Or.inl ?_)
  norm_num [deadRocket, Rocket.new]

lemma c3World_consistent : stateConsistent c3World sqC := by
  intro r hr
  have hreq : r = deadRocket := by simpa [c3World] using hr
  subst hreq
  exact ⟨fun _ => deadRocket_collision, fun hs => absurd hs (by decide)⟩

lemma c3World_aliveInv : aliveInv c3World := by
  unfold aliveInv deadCount
  norm_num [c3World, deadRocket, Rocket.new]

/-- Witness for C3 at a concrete world. -/
theorem c3_terminal_freeze_witness :
    ∃ w2, update c3World sqC qZero qZero zeroGenes zeroRnd = some w2 ∧
      w2.rockets[0]? = some deadRocket :=
  c3_terminal_freeze.2.2 c3World sqC qZero qZero zeroGenes zeroRnd 0 deadRocket
    c3World_consistent (by decide) rfl (Or.inl rfl)

/-- Witness for C7 at a concrete world. -/
theorem c7_alive_count_invariant_witness :
    ∃ w2, update c3World sqC qZero qZero zeroGenes zeroRnd = some w2 ∧
      aliveInv w2 :=
  c7_alive_count_invariant.2.2 c3World sqC qZero qZero zeroGenes zeroRnd
    c3World_consistent c3World_aliveInv (by decide)

def tgtRocket : Rocket := Rocket.new ⟨-5, 0⟩

/-- A world whose rocket is simultaneously out of bounds and inside the
target radius (the target center itself is out of bounds). -/
def c6World : World :=
  { rockets := [tgtRocket], alive_count := 1, walls := [], target := ⟨-5, 0⟩,
    frame_counter := 0, timer_rect := ⟨0, 0, 0, 0⟩, generation := 0,
    mating_pool := [] }

/-- Witness for C6 at a concrete world. -/
theorem c6_collision_priority_witness :
    ∃ w2, update c6World sqC qZero qZero zeroGenes zeroRnd = some w2 ∧
      w2.rockets[0]? = some { tgtRocket with state := RocketState.Dead } :=
  c6_collision_priority c6World sqC qZero qZero zeroGenes zeroRnd 0 tgtRocket
    (by decide) rfl
    (by refine Or.inl (Or.inl ?_); norm_num [tgtRocket, Rocket.new])
    (by norm_num [collision_target, distSq, sqC, tgtRocket, Rocket.new, c6World,
      TARGET_RADIUS])

/-! ### Selection safety and generation rollover -/

/-- C4: with the mating pool gen_mating_pool just built, a non-empty pool
lets `selection` fill all `ROCKET_COUNT` slots without any out-of-range
access (both the pool draw and the parent lookup succeed), while an empty
pool makes the very first draw `gen_range(0..0)` a fatal precondition
violation (modelled by `none`). -/
theorem c4_selection_safety (w : World) (sq : ℚ → ℚ) (rnd : ℕ → SlotRnd) :
    (((w.calc_fitness sq).gen_mating_pool).mating_pool ≠ [] →
       ∃ l, ((w.calc_fitness sq).gen_mating_pool).selectMany rnd ROCKET_COUNT
          = some l ∧ l.length = ROCKET_COUNT) ∧
    (((w.calc_fitness sq).gen_mating_pool).mating_pool = [] →
       ((w.calc_fitness sq).gen_mating_pool).selectMany rnd ROCKET_COUNT
        = none) := by
  constructor
  · intro hp
    exact selectMany_spec _ rnd ROCKET_COUNT (List.length_pos.mpr hp)
      (gen_pool_bound (w.calc_fitness sq))
  · intro hp
    have h80 : ROCKET_COUNT = 79 + 1 := rfl
    rw [h80]
    exact selectMany_none _ rnd 79 hp

/-- C8: when the clock has reached the tick budget, `update` performs the
generation rollover and nothing else; afterwards the population has
exactly `ROCKET_COUNT` fresh rockets at the start position with the start
heading, all `Alive` with cursor `0`, the generation counter is bumped by
one, the clock is `0` and the alive-count is the full population size
(provided the freshly built mating pool is non-empty, without which the
selection draw would panic). -/
theorem c8_generation_rollover (w : World) (sq cosR sinR : ℚ → ℚ)
    (g : ℕ → ℕ → ℚ) (rnd : ℕ → SlotRnd)
    (hf : w.frame_counter = GENE_LEN)
    (hp : ((w.calc_fitness sq).gen_mating_pool).mating_pool ≠ []) :
    ∃ w2, update w sq cosR sinR g rnd = some w2 ∧
      w2.rockets.length = ROCKET_COUNT ∧
      (∀ r ∈ w2.rockets, r.pos = startPos ∧ r.angle = -90 ∧
        r.state = RocketState.Alive ∧ r.dna.curr_gene = 0) ∧
      w2.generation = w.generation + 1 ∧
      w2.frame_counter = 0 ∧
      w2.alive_count = (ROCKET_COUNT : ℤ) := by
  obtain ⟨l, hres, hlen, hall⟩ := restart_spec w sq g rnd hp
  exact ⟨_, by rw [update_rollover w sq cosR sinR g rnd hf]; exact hres,
    hlen, hall, rfl, rfl, rfl⟩

lemma toNat_floor_eq (x : ℚ) (n : ℕ) (h1 : (n : ℚ) ≤ x) (h2 : x < n + 1) :
    (⌊x⌋).toNat = n := by
  have hf : ⌊x⌋ = (n : ℤ) := by
    rw [Int.floor_eq_iff]
    constructor
    · push_cast
      exact h1
    · push_cast
      exact h2
  rw [hf]
  simp

/-- World `c2World` at the moment the clock budget is exhausted. -/
def c8World : World := { c2World with frame_counter := GENE_LEN }

lemma c8_pool_len :
    ((c8World.calc_fitness sqC).gen_mating_pool).mating_pool.length = 100 := by
  rw [gen_pool_length]
  have h100 : (⌊(100 : ℚ)⌋).toNat = 100 := toNat_floor_eq 100 100 (by norm_num) (by norm_num)
  have h0 : (⌊(0 : ℚ)⌋).toNat = 0 := toNat_floor_eq 0 0 (by norm_num) (by norm_num)
  norm_num [World.calc_fitness, World.calc_dist_from_target, c8World, c2World,
    rktA, rktB, Rocket.new, DNA.new, distSq, sqC, weight, stateScaled, h100, h0]
  rfl

lemma c8_pool_ne :
    ((c8World.calc_fitness sqC).gen_mating_pool).mating_pool ≠ [] := by
  intro he
  have hl := c8_pool_len
  rw [he] at hl
  simp at hl

/-- A world with a single rocket at distance 5, whose relative fitness is
`1 − 5/5 = 0`, so every weight floors to `0` and the pool stays empty. -/
def c4EmptyWorld : World :=
  { rockets := [rktB], alive_count := 1, walls := [], target := ⟨100, 100⟩,
    frame_counter := 0, timer_rect := ⟨0, 0, 0, 0⟩, generation := 0,
    mating_pool := [] }

lemma c4_empty_pool :
    ((c4EmptyWorld.calc_fitness sqC).gen_mating_pool).mating_pool = [] := by
  have hl : ((c4EmptyWorld.calc_fitness sqC).gen_mating_pool).mating_pool.length
      = 0 := by
    rw [gen_pool_length]
    have h0 : (⌊(0 : ℚ)⌋).toNat = 0 := toNat_floor_eq 0 0 (by norm_num) (by norm_num)
    norm_num [World.calc_fitness, World.calc_dist_from_target, c4EmptyWorld,
      rktB, Rocket.new, DNA.new, distSq, sqC, weight, stateScaled, h0]
  exact List.length_eq_zero.mp hl

/-- Witness for C4: the non-empty pool branch and the empty pool branch,
each at a concrete world. -/
theorem c4_selection_safety_witness :
    (∃ l, ((c8World.calc_fitness sqC).gen_mating_pool).selectMany zeroRnd
        ROCKET_COUNT = some l ∧ l.length = ROCKET_COUNT) ∧
    ((c4EmptyWorld.calc_fitness sqC).gen_mating_pool).selectMany zeroRnd
      ROCKET_COUNT = none :=
  ⟨(c4_selection_safety c8World sqC zeroRnd).1 c8_pool_ne,
   (c4_selection_safety c4EmptyWorld sqC zeroRnd).2 c4_empty_pool⟩

/-- Witness for C8 at a concrete world. -/
theorem c8_generation_rollover_witness :
    ∃ w2, update c8World sqC qZero qZero zeroGenes zeroRnd = some w2 ∧
      w2.rockets.length = ROCKET_COUNT ∧
      (∀ r ∈ w2.rockets, r.pos = startPos ∧ r.angle = -90 ∧
        r.state = RocketState.Alive ∧ r.dna.curr_gene = 0) ∧
      w2.generation = c8World.generation + 1 ∧
      w2.frame_counter = 0 ∧
      w2.alive_count = (ROCKET_COUNT : ℤ) :=
  c8_generation_rollover c8World sqC qZero qZero zeroGenes zeroRnd rfl c8_pool_ne

end SmartRockets
